import Mathlib

/-!
Verification development for the real-time collaborative code editor's
synchronization hook (`src/app/editor/[id]/hooks/useYjs.ts`).

The hook's pure computations (room naming, the seed-once reconciliation
performed in `initBinding`, the guard logic of the async continuation,
the teardown sequence of `cleanupAll`, and the remote-cursor decoration
recomputation) are embedded shallowly as Lean functions.  The Yjs CRDT
itself lives in the external `yjs` package, so the Replicated Document
is modelled from the specification's contract (a Logoot-style sequence
CRDT with totally ordered origin-tagged identifiers and tombstoned
deletes).
-/

namespace RCCE

/-! ## Room naming (useYjs.ts lines 160-165)

The source computes
`safeFile   = activeFile.replace(/[\/\\]/g, "--").replace(/\./g, "-")`,
`safeBranch = currentBranch.replace(/[\/\\]/g, "--").replace(/\s/g, "%20")`,
`roomName   = projectId + "-" + safeBranch + "--" + safeFile`.
A JavaScript global single-character-class `replace` maps each matching
character to the replacement string; we embed it as a `flatMap` over the
string's characters. -/

/-- One global regex replacement of every character satisfying `p` by the
string `r`, as performed by `String.prototype.replace` with a global
single-character-class pattern. -/
def jsReplace (p : Char → Bool) (r : String) (s : String) : String :=
  String.mk (s.data.flatMap (fun c => if p c then r.data else [c]))

/-- Characters matched by the class `[\/\\]` (path separators). -/
def isSep (c : Char) : Bool := c = '/' || c = '\\'

/-- Characters matched by the JavaScript regex class `\\s`: space, tab,
line feed, vertical tab, form feed, carriage return, no-break space,
ogham space mark, the en-quad..hair-space range, line separator,
paragraph separator, narrow no-break space, medium mathematical space,
ideographic space and the byte-order mark. -/
def isJsWhitespace (c : Char) : Bool :=
  c = ' ' || c = '\t' || c = '\n' || c = '\r' || c.val = 0x0b || c.val = 0x0c ||
  c.val = 0xa0 || c.val = 0x1680 ||
  (0x2000 ≤ c.val && c.val ≤ 0x200a) ||
  c.val = 0x2028 || c.val = 0x2029 || c.val = 0x202f || c.val = 0x205f ||
  c.val = 0x3000 || c.val = 0xfeff

/-- Characters matched by the class `\.` (a literal dot). -/
def isDot (c : Char) : Bool := c = '.'

/-- `safeFile` from the hook: separators to `--`, then dots to `-`. -/
def safeFile (activeFile : String) : String :=
  jsReplace isDot "-" (jsReplace isSep "--" activeFile)

/-- `safeBranch` from the hook: separators to `--`, then whitespace to `%20`. -/
def safeBranch (currentBranch : String) : String :=
  jsReplace isJsWhitespace "%20" (jsReplace isSep "--" currentBranch)

/-- `roomName` from the hook: the template literal
`projectId-safeBranch--safeFile`. -/
def roomName (projectId currentBranch activeFile : String) : String :=
  projectId ++ "-" ++ safeBranch currentBranch ++ "--" ++ safeFile activeFile

/-! The specification (§6 of spec.md) describes the same wire format with a
single-pass `escape`; we state that single pass separately and prove the
two sequential replacements of the hook agree with it. -/

/-- The `escape` of the specification for file paths: every path separator
becomes `--` and every dot becomes `-`, in one pass. -/
def escapeFileSpec (f : String) : String :=
  String.mk (f.data.flatMap
    (fun c => if isSep c then "--".data else if isDot c then "-".data else [c]))

/-- The `escape` of the specification for branch names: every path separator
becomes `--` and every whitespace character becomes `%20`, in one pass. -/
def escapeBranchSpec (b : String) : String :=
  String.mk (b.data.flatMap
    (fun c => if isSep c then "--".data
     else if isJsWhitespace c then "%20".data else [c]))

/-- The room identifier of the specification, given as
`projectId + "-" + escape(branchName) + "--" + escape(filePath)`. -/
def roomIdSpec (p b f : String) : String :=
  p ++ "-" ++ escapeBranchSpec b ++ "--" ++ escapeFileSpec f

lemma flatMap_keep (g : Char → List Char) (l : List Char)
    (h : ∀ c ∈ l, g c = [c]) : l.flatMap g = l := by
  induction l with
  | nil => rfl
  | cons c cs ih =>
      simp only [List.flatMap_cons, h c (List.mem_cons_self c cs)]
      simp only [List.cons_append, List.nil_append] at *
      rw [ih (fun d hd => h d (List.mem_cons_of_mem c hd))]

lemma two_pass_fusion (p₁ p₂ : Char → Bool) (r₁ r₂ : List Char)
    (hfix : ∀ c ∈ r₁, p₂ c = false) (l : List Char) :
    (l.flatMap fun c => if p₁ c then r₁ else [c]).flatMap
        (fun c => if p₂ c then r₂ else [c]) =
      l.flatMap (fun c => if p₁ c then r₁ else if p₂ c then r₂ else [c]) := by
  induction l with
  | nil => rfl
  | cons c cs ih =>
      simp only [List.flatMap_cons, List.flatMap_append, ih]
      by_cases h₁ : p₁ c
      · rw [if_pos h₁, if_pos h₁,
          flatMap_keep _ r₁ (fun d hd => by rw [if_neg]; simp [hfix d hd])]
      · rw [if_neg h₁, if_neg h₁]
        simp only [List.flatMap_cons, List.flatMap_nil, List.append_nil]

lemma safeFile_eq_spec (f : String) : safeFile f = escapeFileSpec f :=
  congrArg String.mk
    (two_pass_fusion isSep isDot "--".data "-".data (by decide) f.data)

lemma safeBranch_eq_spec (b : String) : safeBranch b = escapeBranchSpec b :=
  congrArg String.mk
    (two_pass_fusion isSep isJsWhitespace "--".data "%20".data
      (by decide) b.data)

/-- C3: the hook's room identifier is bit-exact the specification's wire
format: `projectId + "-" + escape(branchName) + "--" + escape(filePath)`
with separators escaped to `--`, branch whitespace to `%20`, and file
dots to `-`. -/
theorem roomName_eq_spec (p b f : String) :
    roomName p b f = roomIdSpec p b f := by
  unfold roomName roomIdSpec
  rw [safeFile_eq_spec, safeBranch_eq_spec]

/-! ## Claim C4: determinism and collision-freedom of the room identifier

Determinism holds (the computation is a pure function), but full
collision-freedom over raw triples fails: escaping identifies distinct
names, e.g. the files `"b.c"` and `"b-c"` both escape to `"b-c"`.  What
does hold is the property actually stated in §8 of the specification:
for a fixed project and file, two branches whose escaped forms differ
never produce the same room identifier. -/

lemma string_eq_of_data {s u : String} (h : s.data = u.data) : s = u := by
  cases s
  cases u
  exact congrArg String.mk h

/-- C4 counterexample: two different (projectId, branchName, filePath)
triples that produce the identical room identifier, refuting the claim
that any two different triples yield distinct strings. -/
theorem roomName_collision :
    roomName "p" "a" "b.c" = roomName "p" "a" "b-c" ∧
      ("b.c" : String) ≠ "b-c" := by
  constructor
  · rfl
  · decide

/-- C4 (amended): the room identifier is deterministic — repeated
computation on identical inputs yields the identical string — and, for
a fixed project and file, two branches whose escaped forms differ never
collide; in particular branch `feat/x` never collides with `feat-x`. -/
theorem roomName_deterministic_branch_injective :
    (∀ p b f, roomName p b f = roomName p b f) ∧
      (∀ p f b₁ b₂, safeBranch b₁ ≠ safeBranch b₂ →
        roomName p b₁ f ≠ roomName p b₂ f) := by
  refine ⟨fun p b f => rfl, fun p f b₁ b₂ hne he => hne ?_⟩
  apply string_eq_of_data
  unfold roomName at he
  have hd := congrArg String.data he
  simp only [String.data_append, List.append_assoc] at hd
  have hmid := (List.append_inj hd (by rfl)).2
  have hmid₂ := (List.append_inj hmid (by rfl)).2
  have hlen : (safeBranch b₁).data.length = (safeBranch b₂).data.length := by
    have := congrArg List.length hmid₂
    simp only [List.length_append] at this
    omega
  exact (List.append_inj hmid₂ hlen).1

/-- Witness for the amended C4 at the branch pair named by the
specification: `feat/x` and `feat-x` escape differently and their rooms
differ for the same project and file. -/
theorem roomName_deterministic_branch_injective_witness :
    safeBranch "feat/x" ≠ safeBranch "feat-x" ∧
      roomName "p1" "feat/x" "a.ts" ≠ roomName "p1" "feat-x" "a.ts" :=
  ⟨by decide,
    roomName_deterministic_branch_injective.2 "p1" "a.ts" "feat/x" "feat-x"
      (by decide)⟩

/-! ## Seed-once reconciliation (useYjs.ts lines 210-228)

`initBinding` reads the metadata map and the shared text after the first
sync and either seeds the Replicated Document from the snapshot `files`
or mirrors the converged text back into the snapshot.  The relevant
Y.Doc observables are the shared text and the `"initialized"` flag of
the `metadata` map; we embed them as a record.  The snapshot is the
`files` object, embedded as a partial map (a JavaScript property read
of a missing key yields `undefined`, embedded as `none`). -/

/-- State of the Replicated Document visible to `initBinding`: the text
register `ytext` and the boolean metadata flag (field `inited` embeds
the `"initialized"` entry of the `metadata` map, `false` when unset). -/
structure YDocState where
  text : String
  inited : Bool
deriving DecidableEq

/-- The reconciliation step of `initBinding` (lines 210-228): when the
flag is unset and the text is empty, insert `files[activeFile] ?? ""`
at position 0 when it is truthy (a non-empty string) and set the flag;
otherwise copy the Y.Doc text into `files[activeFile]` when it differs. -/
def reconcile (d : YDocState) (files : String → Option String)
    (activeFile : String) : YDocState × (String → Option String) :=
  if ¬d.inited ∧ ¬(0 < d.text.length) then
    let initialContent := (files activeFile).getD ""
    let d₁ :=
      if initialContent ≠ "" then { d with text := initialContent ++ d.text }
      else d
    ({ d₁ with inited := true }, files)
  else
    let yjsContent := d.text
    if files activeFile ≠ some yjsContent then
      (d, Function.update files activeFile (some yjsContent))
    else
      (d, files)

lemma string_length_pos_iff (s : String) : 0 < s.length ↔ s ≠ "" := by
  cases s with
  | mk l =>
      rw [String.length_mk, List.length_pos]
      constructor
      · intro h he
        exact h (congrArg String.data he)
      · intro h he
        exact h (string_eq_of_data he)

lemma reconcile_fresh (d : YDocState) (files : String → Option String)
    (af : String) (h₁ : d.inited = false) (h₂ : d.text = "") :
    reconcile d files af = (⟨(files af).getD "", true⟩, files) := by
  obtain ⟨t, i⟩ := d
  simp only at h₁ h₂
  subst h₁
  subst h₂
  by_cases hc : (files af).getD "" = ""
  · simp [reconcile, hc]
  · simp [reconcile, hc, String.append_empty]

lemma reconcile_not_fresh (d : YDocState) (files : String → Option String)
    (af : String) (h : d.inited = true ∨ d.text ≠ "") :
    (reconcile d files af).1 = d ∧
      (reconcile d files af).2 af = some d.text := by
  unfold reconcile
  rw [if_neg]
  · by_cases hw : files af ≠ some d.text
    · rw [if_pos hw]
      exact ⟨rfl, Function.update_same af (some d.text) files⟩
    · rw [if_neg hw]
      exact ⟨rfl, (not_not.mp hw).symm ▸ rfl⟩
  · rcases h with h | h
    · simp [h]
    · simp [(string_length_pos_iff d.text).mpr h]

/-- C2: seed-once reconciliation.  On the first sync, a document whose
flag is unset and whose text is empty gets the snapshot content for the
active file inserted at position 0 and the flag set, with the snapshot
untouched; any other document is left unchanged and the snapshot entry
for the active file ends up holding the current document text. -/
theorem reconcile_seed_once (d : YDocState) (files : String → Option String)
    (af : String) :
    (d.inited = false → d.text = "" →
      reconcile d files af = (⟨(files af).getD "", true⟩, files)) ∧
    (d.inited = true ∨ d.text ≠ "" →
      (reconcile d files af).1 = d ∧
        (reconcile d files af).2 af = some d.text) :=
  ⟨fun h₁ h₂ => reconcile_fresh d files af h₁ h₂,
   fun h => reconcile_not_fresh d files af h⟩

/-- External Snapshot holding `"hello"` for file `a.txt`. -/
def helloFiles : String → Option String :=
  fun f => if f = "a.txt" then some "hello" else none

/-- Witness for C2: the first fresh replica ends with text `hello` and
the flag set, and a second replica that has synced to that converged
state keeps text `hello` — never `hellohello`. -/
theorem reconcile_seed_once_witness :
    reconcile ⟨"", false⟩ helloFiles "a.txt" = (⟨"hello", true⟩, helloFiles) ∧
      (reconcile ⟨"hello", true⟩ helloFiles "a.txt").1.text = "hello" := by
  constructor
  · rw [(reconcile_seed_once ⟨"", false⟩ helloFiles "a.txt").1 rfl rfl]
    rfl
  · rw [((reconcile_seed_once ⟨"hello", true⟩ helloFiles "a.txt").2
      (Or.inl rfl)).1]

/-- C10: when the first sync finds the flag unset and the text empty but
the snapshot entry for the active file is absent or empty, nothing is
inserted yet the flag is still set — and any replica that later syncs to
that converged empty-but-flagged state never seeds from its own
snapshot, overwriting it with the empty text instead. -/
theorem reconcile_empty_snapshot (files files₂ : String → Option String)
    (af af₂ : String) (h : files af = none ∨ files af = some "") :
    reconcile ⟨"", false⟩ files af = (⟨"", true⟩, files) ∧
      (reconcile ⟨"", true⟩ files₂ af₂).1 = ⟨"", true⟩ ∧
      (reconcile ⟨"", true⟩ files₂ af₂).2 af₂ = some "" := by
  refine ⟨?_, ?_, ?_⟩
  · rw [reconcile_fresh ⟨"", false⟩ files af rfl rfl]
    rcases h with h | h <;> rw [h] <;> rfl
  · exact (reconcile_not_fresh ⟨"", true⟩ files₂ af₂ (Or.inl rfl)).1
  · exact (reconcile_not_fresh ⟨"", true⟩ files₂ af₂ (Or.inl rfl)).2

/-- An External Snapshot with no entry at all. -/
def emptyFiles : String → Option String := fun _ => none

/-- An External Snapshot holding `"big"` for every file. -/
def bigFiles : String → Option String := fun _ => some "big"

/-- Witness for C10: seeding against an absent snapshot entry marks the
document as seeded with empty text, and a later replica with a
non-empty snapshot of its own never re-seeds. -/
theorem reconcile_empty_snapshot_witness :
    reconcile ⟨"", false⟩ emptyFiles "a.txt" = (⟨"", true⟩, emptyFiles) ∧
      (reconcile ⟨"", true⟩ bigFiles "a.txt").1 = ⟨"", true⟩ ∧
      (reconcile ⟨"", true⟩ bigFiles "a.txt").2 "a.txt" = some "" :=
  reconcile_empty_snapshot emptyFiles bigFiles "a.txt" "a.txt" (Or.inl rfl)

/-! ## Stale-continuation guard of initBinding (useYjs.ts lines 200-205)

`initBinding` re-checks `!mounted || !model || model.isDisposed()` after
the awaited dynamic import resolves; the continuation from that point on
is embedded as a function of the guard inputs.  Its result is the Y.Doc
state, the snapshot map and whether a MonacoBinding was created. -/

/-- The continuation of `initBinding` that runs once the dynamically
imported binding module resolves: re-check the guard, then reconcile
and create the binding.  The `Bool` result records binding creation. -/
def initBindingResume (mounted modelPresent modelDisposed : Bool)
    (d : YDocState) (files : String → Option String) (af : String) :
    YDocState × (String → Option String) × Bool :=
  if !mounted || !modelPresent || modelDisposed then (d, files, false)
  else
    let r := reconcile d files af
    (r.1, r.2, true)

/-- C5: if cleanup already ran (the mounted flag is false) or the Monaco
model is disposed by the time the binding module resolves, the
continuation performs no side effect: the text register and metadata
flag are untouched, the files map is untouched, and no binding is
created. -/
theorem initBindingResume_stale_noop (mounted modelPresent modelDisposed : Bool)
    (d : YDocState) (files : String → Option String) (af : String)
    (h : mounted = false ∨ modelDisposed = true) :
    initBindingResume mounted modelPresent modelDisposed d files af =
      (d, files, false) := by
  unfold initBindingResume
  rcases h with h | h <;> simp [h]

/-- Witness for C5: a cleaned-up activation (mounted flag already false)
whose continuation resolves late changes nothing, even though the
snapshot holds content the document does not. -/
theorem initBindingResume_stale_noop_witness :
    initBindingResume false true false ⟨"", false⟩ helloFiles "a.txt" =
      (⟨"", false⟩, helloFiles, false) :=
  initBindingResume_stale_noop false true false ⟨"", false⟩ helloFiles "a.txt"
    (Or.inl rfl)

/-! ## Teardown: cleanupAll (useYjs.ts lines 84-144)

`cleanupAll` tears down, in program order: the awareness `change`
listener (guarded by both the listener ref and the provider ref being
set), the cursor listener, the MonacoBinding, the WebsocketProvider and
the Y.Doc — each inside its own `try`/`catch` whose `catch` only logs —
and finally nulls `modelRef` without disposing it.  Inside each `try`
the ref is nulled **after** the destroy call, so a destroy that throws
leaves its ref assigned.  Each ref is embedded as `Option Bool`: `none`
is a null ref, `some b` a live component whose teardown call throws iff
`b`.  The returned list records which components had their teardown
call invoked. -/

/-- Components handled by `cleanupAll` and the setup effect. -/
inductive Comp where
  | awareness
  | cursor
  | binding
  | provider
  | ydoc
  | model
deriving DecidableEq, Fintype

/-- The mutable refs of the hook.  A `some b` entry is a live component
whose destroy/dispose/off call throws iff `b`; `model` only records
whether `modelRef` is set (it is never disposed by `cleanupAll`). -/
structure Refs where
  awarenessL : Option Bool
  cursorL : Option Bool
  binding : Option Bool
  provider : Option Bool
  ydoc : Option Bool
  model : Bool
deriving DecidableEq, Fintype

/-- `cleanupAll`: sequential teardown with per-resource `try`/`catch`.
Returns the final refs and the ordered list of components whose
teardown call was invoked.  A throwing call is caught (the function is
total) but skips the `ref = null` assignment that follows it. -/
def cleanupAll (s : Refs) : Refs × List Comp :=
  let (aL, aAtt) :=
    match s.awarenessL, s.provider with
    | some b, some _ => (if b then some b else none, [Comp.awareness])
    | a, _ => (a, ([] : List Comp))
  let (cL, cAtt) :=
    match s.cursorL with
    | some b => (if b then some b else none, [Comp.cursor])
    | none => (none, ([] : List Comp))
  let (bL, bAtt) :=
    match s.binding with
    | some b => (if b then some b else none, [Comp.binding])
    | none => (none, ([] : List Comp))
  let (pL, pAtt) :=
    match s.provider with
    | some b => (if b then some b else none, [Comp.provider])
    | none => (none, ([] : List Comp))
  let (yL, yAtt) :=
    match s.ydoc with
    | some b => (if b then some b else none, [Comp.ydoc])
    | none => (none, ([] : List Comp))
  (⟨aL, cL, bL, pL, yL, false⟩, aAtt ++ cAtt ++ bAtt ++ pAtt ++ yAtt)

/-- The components whose teardown guard holds in state `s`, in program
order; this depends only on which refs are set, never on which
teardowns throw. -/
def presentComps (s : Refs) : List Comp :=
  (if s.awarenessL.isSome && s.provider.isSome then [Comp.awareness] else []) ++
    (if s.cursorL.isSome then [Comp.cursor] else []) ++
    (if s.binding.isSome then [Comp.binding] else []) ++
    (if s.provider.isSome then [Comp.provider] else []) ++
    (if s.ydoc.isSome then [Comp.ydoc] else [])

/-- A fully populated Active triple whose binding destroy throws and
whose other teardowns succeed. -/
def throwingBinding : Refs :=
  ⟨some false, some false, some true, some false, some false, true⟩

/-- A fully populated Active triple none of whose teardowns throws. -/
def allClean : Refs :=
  ⟨some false, some false, some false, some false, some false, true⟩

/-- No live component of `s` has a throwing teardown. -/
def noThrow (s : Refs) : Prop :=
  s.awarenessL ≠ some true ∧ s.cursorL ≠ some true ∧ s.binding ≠ some true ∧
    s.provider ≠ some true ∧ s.ydoc ≠ some true

instance noThrow_decidable (s : Refs) : Decidable (noThrow s) := by
  unfold noThrow
  infer_instance

/-- C6 counterexample: when the binding destroy throws, every other
component is still torn down (all five teardown calls are invoked), but
`bindingRef` is NOT null after `cleanupAll` returns — the `ref = null`
assignment sits after the throwing call inside the `try` — refuting the
claim that all component references are null afterwards. -/
theorem cleanupAll_throw_leaves_ref :
    (cleanupAll throwingBinding).2 =
        [Comp.awareness, Comp.cursor, Comp.binding, Comp.provider, Comp.ydoc] ∧
      (cleanupAll throwingBinding).1.binding ≠ none := by
  decide

set_option maxRecDepth 8192 in
/-- C6 (amended): teardown is attempted for every live component in
program order regardless of which teardowns throw (per-resource
catching; the function always returns, never propagating), `modelRef`
is always nulled, and every component whose teardown call does not
throw ends with its ref null — but a component whose teardown throws
keeps its ref assigned. -/
theorem cleanupAll_error_containment :
    ∀ s : Refs,
      (cleanupAll s).2 = presentComps s ∧
      (cleanupAll s).1.model = false ∧
      (s.awarenessL ≠ some true → s.provider ≠ none →
        (cleanupAll s).1.awarenessL = none) ∧
      (s.cursorL ≠ some true → (cleanupAll s).1.cursorL = none) ∧
      (s.binding ≠ some true → (cleanupAll s).1.binding = none) ∧
      (s.provider ≠ some true → (cleanupAll s).1.provider = none) ∧
      (s.ydoc ≠ some true → (cleanupAll s).1.ydoc = none) := by
  decide

/-- Witness for the amended C6 at the state whose binding throws: the
other four components are still attempted and the provider ref ends
null. -/
theorem cleanupAll_error_containment_witness :
    (cleanupAll throwingBinding).2 = presentComps throwingBinding ∧
      (cleanupAll throwingBinding).1.provider = none :=
  ⟨(cleanupAll_error_containment throwingBinding).1,
    (cleanupAll_error_containment throwingBinding).2.2.2.2.2.1 (by decide)⟩

/-- C7 counterexample: after a first `cleanupAll` in which the binding
destroy threw, `bindingRef` is still assigned, so a second call DOES
invoke a destroy operation again — refuting the claim that the second
call invokes no destroy/dispose/off operation. -/
theorem cleanupAll_second_call_attempts :
    (cleanupAll (cleanupAll throwingBinding).1).2 ≠ [] := by
  decide

set_option maxRecDepth 8192 in
/-- C7 (amended): when no live component has a throwing teardown, a
second `cleanupAll` with no intervening setup invokes no teardown call
at all; and in every case — throwing teardowns included — the second
call never propagates and leaves the ref state exactly as the first
call left it. -/
theorem cleanupAll_idempotent :
    ∀ s : Refs,
      (noThrow s → (cleanupAll (cleanupAll s).1).2 = []) ∧
        (cleanupAll (cleanupAll s).1).1 = (cleanupAll s).1 := by
  decide

/-- Witness for the amended C7 on a fully populated non-throwing
state. -/
theorem cleanupAll_idempotent_witness :
    (cleanupAll (cleanupAll allClean).1).2 = [] ∧
      (cleanupAll (cleanupAll allClean).1).1 = (cleanupAll allClean).1 :=
  ⟨(cleanupAll_idempotent allClean).1 (by decide),
    (cleanupAll_idempotent allClean).2⟩

/-! ## Activation trace (useYjs.ts lines 147-197)

The synchronous body of the main effect returns early when there is no
active file or the widget is not ready; otherwise it calls `cleanupAll`
to completion and only then constructs the new Y.Doc, the
WebsocketProvider and the Monaco model (the MonacoBinding is created
later by the async `initBinding`).  We record the body as a list of
teardown/construct events. -/

/-- One observable step of the effect body. -/
inductive Event where
  | teardown (c : Comp)
  | construct (c : Comp)
deriving DecidableEq

/-- Whether an event is a teardown. -/
def Event.isTeardownB : Event → Bool
  | .teardown _ => true
  | .construct _ => false

/-- Whether an event is a construction. -/
def Event.isConstructB : Event → Bool
  | .teardown _ => false
  | .construct _ => true

/-- Event trace of the synchronous effect body: early return on a
missing active file or unready widget, else all of `cleanupAll`
followed by construction of the Y.Doc, the provider and the model. -/
def setupTrace (s : Refs) (activeFilePresent monacoReady editorReady : Bool) :
    List Event :=
  if !activeFilePresent || !monacoReady || !editorReady then []
  else
    ((cleanupAll s).2.map Event.teardown) ++
      [Event.construct Comp.ydoc, Event.construct Comp.provider,
        Event.construct Comp.model]

set_option maxRecDepth 8192 in
lemma cleanupAll_attempt_order (s : Refs) :
    (cleanupAll s).2.Sublist
      [Comp.awareness, Comp.cursor, Comp.binding, Comp.provider, Comp.ydoc] := by
  revert s
  decide

lemma map_append_index_order {α : Type} (A B : List α) (f g : α → Event)
    (hf : ∀ a, (f a).isTeardownB = true) (hg : ∀ b, (g b).isTeardownB = false)
    (i j : ℕ) (e₁ e₂ : Event)
    (h₁ : (A.map f ++ B.map g)[i]? = some e₁)
    (h₂ : (A.map f ++ B.map g)[j]? = some e₂)
    (ht : e₁.isTeardownB = true) (hc : e₂.isConstructB = true) :
    i < j := by
  have hiA : i < A.length := by
    by_contra hILarge
    push_neg at hILarge
    have hlen : (A.map f).length ≤ i := by simpa using hILarge
    rw [List.getElem?_append_right hlen, List.getElem?_map] at h₁
    cases hB : B[i - (A.map f).length]? with
    | none => rw [hB] at h₁; exact Option.noConfusion h₁
    | some b =>
        rw [hB] at h₁
        have he : g b = e₁ := Option.some.inj h₁
        rw [← he, hg b] at ht
        exact Bool.false_ne_true ht
  have hjA : A.length ≤ j := by
    by_contra hJSmall
    push_neg at hJSmall
    have hlen : j < (A.map f).length := by simpa using hJSmall
    rw [List.getElem?_append_left hlen, List.getElem?_map] at h₂
    cases hA : A[j]? with
    | none => rw [hA] at h₂; exact Option.noConfusion h₂
    | some a =>
        rw [hA] at h₂
        have he : f a = e₂ := Option.some.inj h₂
        have hfa := hf a
        rw [he] at hfa
        cases e₂ with
        | teardown c => exact Bool.false_ne_true hc
        | construct c => exact Bool.false_ne_true hfa
  omega

/-- C8 counterexample: on a fully populated Active triple the first
component torn down by `cleanupAll` is the awareness listener, not the
Document Binding — the actual order is awareness listener, cursor
listener, binding, provider, ydoc — refuting the claimed order of
binding first, then the awareness layer. -/
theorem cleanupAll_order_not_binding_first :
    (cleanupAll allClean).2 =
        [Comp.awareness, Comp.cursor, Comp.binding, Comp.provider, Comp.ydoc] ∧
      (cleanupAll allClean).2.head? ≠ some Comp.binding := by
  decide

/-- C8 (amended): teardown happens in the fixed program order awareness
listener, cursor listener, binding, provider, ydoc (each component only
when live), and in the activation trace every teardown event of the
previous triple precedes every construction event of the new
activation. -/
theorem setupTrace_teardown_precedes_construct (s : Refs)
    (activeFilePresent monacoReady editorReady : Bool) :
    (cleanupAll s).2.Sublist
        [Comp.awareness, Comp.cursor, Comp.binding, Comp.provider, Comp.ydoc] ∧
      ∀ (i j : ℕ) (e₁ e₂ : Event),
        (setupTrace s activeFilePresent monacoReady editorReady)[i]? =
            some e₁ →
        (setupTrace s activeFilePresent monacoReady editorReady)[j]? =
            some e₂ →
        e₁.isTeardownB = true → e₂.isConstructB = true → i < j := by
  refine ⟨cleanupAll_attempt_order s, ?_⟩
  intro i j e₁ e₂ h₁ h₂ ht hc
  unfold setupTrace at h₁ h₂
  cases hguard : (!activeFilePresent || !monacoReady || !editorReady) with
  | true =>
      rw [hguard, if_pos rfl] at h₁
      exact Option.noConfusion ((List.getElem?_nil (n := i)) ▸ h₁)
  | false =>
      rw [hguard, if_neg Bool.false_ne_true] at h₁ h₂
      have hform :
          [Event.construct Comp.ydoc, Event.construct Comp.provider,
            Event.construct Comp.model] =
            ([Comp.ydoc, Comp.provider, Comp.model].map Event.construct) := rfl
      rw [hform] at h₁ h₂
      exact map_append_index_order (cleanupAll s).2
        [Comp.ydoc, Comp.provider, Comp.model] Event.teardown Event.construct
        (fun a => rfl) (fun b => rfl) i j e₁ e₂ h₁ h₂ ht hc

/-- Witness for the amended C8: on the fully populated non-throwing
state with the widget ready, event 0 (the awareness-listener teardown)
precedes event 5 (the Y.Doc construction). -/
theorem setupTrace_teardown_precedes_construct_witness :
    (cleanupAll allClean).2.Sublist
        [Comp.awareness, Comp.cursor, Comp.binding, Comp.provider, Comp.ydoc] ∧
      (0 : ℕ) < 5 :=
  ⟨(setupTrace_teardown_precedes_construct allClean true true true).1,
    (setupTrace_teardown_precedes_construct allClean true true true).2 0 5
      (Event.teardown Comp.awareness) (Event.construct Comp.ydoc)
      (by decide) (by decide) (by decide) (by decide)⟩

/-! ## Remote cursor decorations (useYjs.ts lines 33-81)

`updateRemoteCursorDecorations` walks the awareness state list, skips
entries without a cursor and the local client, builds one decoration
per remaining participant, and calls `editor.deltaDecorations` with the
previous decoration ids (from `decorationsRef`) so the whole previous
set is replaced.  The Monaco decoration store is embedded as a list of
id/decoration pairs with a fresh-id counter. -/

/-- Awareness user payload (name, email, color may each be absent). -/
structure RUser where
  name : Option String
  email : Option String
  color : Option String
deriving DecidableEq

/-- Cursor payload; `line`/`column` may be absent (the code defaults
them to 1). -/
structure CursorPos where
  line : Option Nat
  column : Option Nat
deriving DecidableEq

/-- One entry of the awareness state list. -/
structure PresenceUser where
  clientId : Nat
  user : Option RUser
  cursor : Option CursorPos
deriving DecidableEq

/-- A Monaco delta decoration as built by the hook: a collapsed range at
the cursor, a hover message and a per-client inline class name. -/
structure Decoration where
  startLine : Nat
  startColumn : Nat
  endLine : Nat
  endColumn : Nat
  hoverMessage : String
  inlineClassName : String
deriving DecidableEq

/-- The hover label `s.user?.name ?? s.user?.email ?? "user"`. -/
def hoverName (u : Option RUser) : String :=
  match u with
  | some r => r.name.getD (r.email.getD "user")
  | none => "user"

/-- The decoration the hook builds for a remote participant. -/
def mkDecoration (s : PresenceUser) (c : CursorPos) : Decoration :=
  let line := c.line.getD 1
  let col := c.column.getD 1
  { startLine := line
    startColumn := col
    endLine := line
    endColumn := col
    hoverMessage := "**" ++ hoverName s.user ++ "**"
    inlineClassName := "remoteCursor_" ++ toString s.clientId }

/-- The `decs` array of the hook: one decoration per state entry that
has a cursor and is not the local client. -/
def decorationsFor (myClientId : Nat) (states : List PresenceUser) :
    List Decoration :=
  states.filterMap (fun s =>
    match s.cursor with
    | none => none
    | some c =>
        if s.clientId = myClientId then none else some (mkDecoration s c))

/-- The decoration store of the Monaco editor: current id/decoration
pairs plus a fresh-id counter. -/
structure EditorDecos where
  nextId : Nat
  decos : List (Nat × Decoration)
deriving DecidableEq

/-- `editor.deltaDecorations oldIds newDecs`: removes every decoration
whose id is in `oldIds`, adds the new ones under fresh ids, and returns
the fresh ids. -/
def deltaDecorations (ed : EditorDecos) (oldIds : List Nat)
    (newDecs : List Decoration) : EditorDecos × List Nat :=
  let kept := ed.decos.filter (fun p => decide (p.1 ∉ oldIds))
  let ids := (List.range newDecs.length).map (fun k => ed.nextId + k)
  ({ nextId := ed.nextId + newDecs.length, decos := kept ++ ids.zip newDecs },
    ids)

/-- `updateRemoteCursorDecorations`: early return when the provider ref
is null; otherwise replace the decorations recorded in
`decorationsRef` by the freshly computed set and store the new ids. -/
def updateRemoteCursorDecorations (providerPresent : Bool) (myClientId : Nat)
    (states : List PresenceUser) (ed : EditorDecos)
    (decorationsRef : List Nat) : EditorDecos × List Nat :=
  if !providerPresent then (ed, decorationsRef)
  else deltaDecorations ed decorationsRef (decorationsFor myClientId states)

/-- C9: the computed decorations contain exactly one entry per remote
participant with a cursor — never one for the local client id and never
one for a cursorless participant — and, provided `decorationsRef`
tracks the ids currently in the editor, an invocation fully replaces
the previous decoration set: afterwards the editor holds exactly the
freshly computed decorations and the stored ref holds exactly their
ids. -/
theorem updateRemoteCursorDecorations_replaces (myClientId : Nat)
    (states : List PresenceUser) (ed : EditorDecos) (ref : List Nat)
    (hinv : ed.decos.map Prod.fst = ref) :
    (∀ d : Decoration, d ∈ decorationsFor myClientId states ↔
        ∃ s ∈ states, ∃ c, s.cursor = some c ∧ s.clientId ≠ myClientId ∧
          d = mkDecoration s c) ∧
      (updateRemoteCursorDecorations true myClientId states ed ref).1.decos.map
          Prod.snd = decorationsFor myClientId states ∧
      (updateRemoteCursorDecorations true myClientId states ed ref).2 =
        (updateRemoteCursorDecorations true myClientId states ed
            ref).1.decos.map Prod.fst := by
  have hkept : ed.decos.filter (fun p => decide (p.1 ∉ ref)) = [] := by
    rw [List.filter_eq_nil_iff]
    intro p hp
    have : p.1 ∈ ref := hinv ▸ List.mem_map_of_mem Prod.fst hp
    simp [this]
  have hlen :
      ((List.range (decorationsFor myClientId states).length).map
          (fun k => ed.nextId + k)).length =
        (decorationsFor myClientId states).length := by
    simp
  refine ⟨?_, ?_, ?_⟩
  · intro d
    rw [decorationsFor, List.mem_filterMap]
    constructor
    · rintro ⟨s, hs, hf⟩
      cases hcur : s.cursor with
      | none =>
          rw [hcur] at hf
          exact Option.noConfusion hf
      | some c =>
          rw [hcur] at hf
          have hf₂ : (if s.clientId = myClientId then (none : Option Decoration)
              else some (mkDecoration s c)) = some d := hf
          by_cases hid : s.clientId = myClientId
          · rw [if_pos hid] at hf₂
            exact Option.noConfusion hf₂
          · rw [if_neg hid] at hf₂
            exact ⟨s, hs, c, hcur, hid, (Option.some.inj hf₂).symm⟩
    · rintro ⟨s, hs, c, hc, hne, hd⟩
      refine ⟨s, hs, ?_⟩
      simp only [hc, if_neg hne, hd]
  · unfold updateRemoteCursorDecorations deltaDecorations
    simp only [Bool.not_true, if_neg Bool.false_ne_true]
    rw [hkept]
    simp only [List.nil_append]
    exact List.map_snd_zip _ _ hlen.ge
  · unfold updateRemoteCursorDecorations deltaDecorations
    simp only [Bool.not_true, if_neg Bool.false_ne_true]
    rw [hkept]
    simp only [List.nil_append]
    exact (List.map_fst_zip
      ((List.range (decorationsFor myClientId states).length).map
        (fun k => ed.nextId + k))
      (decorationsFor myClientId states) hlen.le).symm

/-- Awareness sample: a remote participant with a cursor, a cursorless
participant, and the local client (id 9). -/
def sampleStates : List PresenceUser :=
  [⟨7, some ⟨some "ann", none, some "#aabbcc"⟩, some ⟨some 3, some 4⟩⟩,
    ⟨5, some ⟨none, some "bo@x.io", none⟩, none⟩,
    ⟨9, some ⟨some "me", none, none⟩, some ⟨some 1, some 1⟩⟩]

/-- An editor already holding two decorations with ids 0 and 1. -/
def sampleEd : EditorDecos :=
  ⟨2, [(0, mkDecoration ⟨5, none, none⟩ ⟨none, none⟩),
    (1, mkDecoration ⟨6, none, none⟩ ⟨none, none⟩)]⟩

/-- Witness for C9: with the tracked ids 0 and 1 in the editor, an
update replaces them with exactly the freshly computed set. -/
theorem updateRemoteCursorDecorations_replaces_witness :
    (updateRemoteCursorDecorations true 9 sampleStates sampleEd
          [0, 1]).1.decos.map Prod.snd = decorationsFor 9 sampleStates ∧
      (updateRemoteCursorDecorations true 9 sampleStates sampleEd [0, 1]).2 =
        (updateRemoteCursorDecorations true 9 sampleStates sampleEd
            [0, 1]).1.decos.map Prod.fst :=
  ⟨(updateRemoteCursorDecorations_replaces 9 sampleStates sampleEd [0, 1]
      (by decide)).2.1,
    (updateRemoteCursorDecorations_replaces 9 sampleStates sampleEd [0, 1]
      (by decide)).2.2⟩

/-! ## Replicated Document convergence (C1)

The Y.Doc created at useYjs.ts line 157 and its `getText("monaco")`
register live in the external `yjs` package, not in this repository, so
the Replicated Document is modelled from §4.1 of the specification: an
established sequence CRDT (Logoot-style) in which every inserted
character carries a globally unique origin-tagged identifier drawn from
a dense total order (position, then origin id as the deterministic
tie-break for concurrent inserts at the same position) and deletes
tombstone an identifier.  A replica state is the set of operations it
has applied; applying an operation adds it to the set, so states are
delivery-order independent, and `toText` reads the live characters in
identifier order. -/

/-- Modelled from the spec: the globally unique, totally ordered origin
marker of §4.1 — a dense position with the originating replica id as
deterministic tie-break (the Y.Doc item id is not in src/). -/
structure OpId where
  pos : ℚ
  origin : ℕ
deriving DecidableEq

/-- The identifier viewed in the lexicographic order (position first,
origin id as tie-break). -/
def OpId.toLexPair (i : OpId) : Lex (ℚ × ℕ) := toLex (i.pos, i.origin)

instance : LinearOrder OpId :=
  LinearOrder.lift' OpId.toLexPair (fun a b h => by
    cases a
    cases b
    simpa [OpId.toLexPair, Prod.ext_iff] using congrArg ofLex h)

/-- Modelled from the spec: one insert/delete operation on the text
register of the Replicated Document (the Yjs operation type is not in
src/). -/
inductive YOp where
  | insert (id : OpId) (ch : Char)
  | delete (id : OpId)
deriving DecidableEq

/-- Whether an operation is an insert. -/
def YOp.isInsert : YOp → Bool
  | .insert _ _ => true
  | .delete _ => false

/-- The identifier an operation targets. -/
def YOp.targetId : YOp → OpId
  | .insert i _ => i
  | .delete i => i

/-- The character an insert carries. -/
def YOp.charOf : YOp → Char
  | .insert _ ch => ch
  | .delete _ => ' '

/-- Modelled from the spec: applying one received operation to a
replica state (the set of operations applied so far). -/
def applyOp (s : Finset YOp) (op : YOp) : Finset YOp := insert op s

/-- Applying a delivery sequence of operations in order. -/
def applyOps (s : Finset YOp) (l : List YOp) : Finset YOp :=
  l.foldl applyOp s

/-- Identifiers inserted in state `s`. -/
def insertedIds (s : Finset YOp) : Finset OpId :=
  (s.filter (fun op => op.isInsert = true)).image YOp.targetId

/-- Identifiers tombstoned by a delete in state `s`. -/
def deletedIds (s : Finset YOp) : Finset OpId :=
  (s.filter (fun op => op.isInsert = false)).image YOp.targetId

/-- Identifiers whose character is visible: inserted and not
tombstoned. -/
def liveIds (s : Finset YOp) : Finset OpId := insertedIds s \ deletedIds s

/-- The characters inserted under identifier `i` (a singleton in any
well-formed history), in character order. -/
def charsAt (s : Finset YOp) (i : OpId) : List Char :=
  ((s.filter (fun op => op.isInsert = true ∧ op.targetId = i)).image
      YOp.charOf).sort (· ≤ ·)

/-- Modelled from the spec: `toText()` — the visible characters read in
identifier order. -/
def toText (s : Finset YOp) : String :=
  String.mk (((liveIds s).sort (· ≤ ·)).flatMap (charsAt s))

lemma applyOps_perm {l₁ l₂ : List YOp} (h : l₁.Perm l₂) :
    ∀ s : Finset YOp, applyOps s l₁ = applyOps s l₂ := by
  induction h with
  | nil => intro s; rfl
  | cons x h ih => intro s; exact ih (applyOp s x)
  | swap x y l =>
      intro s
      show applyOps (applyOp (applyOp s y) x) l =
        applyOps (applyOp (applyOp s x) y) l
      rw [applyOp, applyOp, applyOp, applyOp, Finset.Insert.comm]
  | trans h₁ h₂ ih₁ ih₂ => intro s; exact (ih₁ s).trans (ih₂ s)

/-- C1: CRDT convergence of the Replicated Document text register —
two replicas that have applied the same multiset of origin-tagged
insert/delete operations, in any delivery order, read byte-identical
`toText()` values. -/
theorem toText_converges (l₁ l₂ : List YOp) (h : l₁.Perm l₂) :
    toText (applyOps ∅ l₁) = toText (applyOps ∅ l₂) :=
  congrArg toText (applyOps_perm h ∅)

/-- Concurrent insert by replica 0. -/
def opA : YOp := .insert ⟨(1 : ℚ), 0⟩ 'h'

/-- Concurrent insert by replica 1 and a delete of an absent id. -/
def opB : YOp := .insert ⟨(2 : ℚ), 1⟩ 'i'

/-- A delete tombstoning the identifier of `opA`. -/
def opC : YOp := .delete ⟨(1 : ℚ), 0⟩

/-- Witness for C1: the two delivery orders of the same three
operations are a permutation and converge to the same text. -/
theorem toText_converges_witness :
    ([opA, opB, opC] : List YOp).Perm [opC, opB, opA] ∧
      toText (applyOps ∅ [opA, opB, opC]) =
        toText (applyOps ∅ [opC, opB, opA]) := by
  have hp : ([opA, opB, opC] : List YOp).Perm [opC, opB, opA] := by decide
  exact ⟨hp, toText_converges [opA, opB, opC] [opC, opB, opA] hp⟩

end RCCE
